import Mathlib

/-!
Verification of the content-extraction core of `src/main.py` (`scrape_site`).

The Document Parser (BeautifulSoup with `html.parser`) is an external
dependency per the design: we embed its output as a tree of nodes and model
the library operations the normalizer uses (`find_all` / `find` in pre-order
document order, `get_text(separator, strip=True)` which joins the stripped
non-empty descendant strings, `Tag.string` which follows a unique-child
chain, `find_next` over the pre-order successors, and `next_siblings`).
Tags are always truthy in the host language's conditional tests; strings are
truthy when non-empty.  Python `str.strip` and slicing `[:n]` are modelled
on the character list (`pyStrip`, `pyTake`), and `"sep".join` as `joinSep`.

The normalizer itself (`scrape_site`, lines 61-149 of `src/main.py`) is
embedded one field at a time: `titleOf`, `descriptionOf`, `heroHeadingOf`,
`heroSubOf`, `navLinksOf`, `sectionsOf`/`finalSectionsOf`, `imagesOf`.
-/

/-- A parsed HTML node: an element with tag name, attributes and children,
or a text node (NavigableString). -/
inductive Node where
  | elem (tag : String) (attrs : List (String × String)) (children : List Node)
  | text (s : String)

/-- Tag name of an element node; `none` for a text node
(Python `getattr(sib, "name", None)`). -/
def Node.name? : Node → Option String
  | .elem t _ _ => some t
  | .text _ => none

/-- Attribute lookup on the attribute map (Python `tag.get(key)` /
`tag[key]`). -/
def lookupAttr (attrs : List (String × String)) (k : String) : Option String :=
  (attrs.find? (fun p => p.1 == k)).map Prod.snd

/-- `n.get(k)` : attribute lookup, `none` on text nodes. -/
def Node.attr? : Node → String → Option String
  | .elem _ as _, k => lookupAttr as k
  | .text _, _ => none

/-- Python whitespace (for `str.strip`). -/
def isSpace (c : Char) : Bool :=
  c == ' ' || c == '\t' || c == '\n' || c == '\r' || c == '\x0b' || c == '\x0c'

/-- `str.strip()` on a character list: drop whitespace from both ends. -/
def stripChars (l : List Char) : List Char :=
  ((l.dropWhile isSpace).reverse.dropWhile isSpace).reverse

/-- Python `s.strip()`. -/
def pyStrip (s : String) : String := ⟨stripChars s.data⟩

/-- Python `s[:n]` (slicing by code point). -/
def pyTake (s : String) (n : Nat) : String := ⟨s.data.take n⟩

/-- Python `sep.join(parts)`. -/
def joinSep (sep : String) : List String → String
  | [] => ""
  | [s] => s
  | s :: rest => s ++ sep ++ joinSep sep rest

mutual

/-- The descendant strings of a node in document order
(BeautifulSoup `descendants` restricted to NavigableStrings). -/
def Node.strings : Node → List String
  | .text s => [s]
  | .elem _ _ cs => stringsList cs
termination_by structural n => n

/-- Descendant strings of a forest, in order. -/
def stringsList : List Node → List String
  | [] => []
  | c :: cs => Node.strings c ++ stringsList cs
termination_by structural l => l

end

/-- `get_text(sep, strip=True)`: strip every descendant string, skip the ones
that become empty, join the rest with `sep`. -/
def getText (sep : String) (n : Node) : String :=
  joinSep sep (((Node.strings n).map pyStrip).filter (fun s => s ≠ ""))

mutual

/-- Pre-order (document-order) flattening of a subtree: the node itself,
then its descendants.  This is the order of `find_all` and the
`next_elements` chain of BeautifulSoup. -/
def flattenNode : Node → List Node
  | .text s => [Node.text s]
  | .elem t a cs => Node.elem t a cs :: flattenList cs
termination_by structural n => n

/-- Pre-order flattening of a forest. -/
def flattenList : List Node → List Node
  | [] => []
  | n :: ns => flattenNode n ++ flattenList ns
termination_by structural l => l

end

/-- `soup.find_all(tag)`: every element with this tag name, in document
order. -/
def findAll (doc : List Node) (tag : String) : List Node :=
  (flattenList doc).filter (fun n => n.name? == some tag)

/-- `soup.find(tag)`: the first element with this tag name, if any. -/
def findFirst (doc : List Node) (tag : String) : Option Node :=
  (findAll doc tag).head?

/-- The elements searched by `tag.find_all(...)`: the descendants of the
tag (the tag itself excluded). -/
def findAllIn (n : Node) (tag : String) : List Node :=
  match n with
  | .elem _ _ cs => findAll cs tag
  | .text _ => []

/-- The `next_elements` of the first element with the given tag: everything
after it in pre-order document order (its own descendants included). -/
def afterFirst (doc : List Node) (tag : String) : List Node :=
  (((flattenList doc).dropWhile (fun n => !(n.name? == some tag))).drop 1)

/-- `Tag.string`: the unique `NavigableString` reached through single
children, if any. -/
def Node.string? : Node → Option String
  | .text s => some s
  | .elem _ _ [c] => Node.string? c
  | .elem _ _ _ => none
termination_by structural n => n

/-- Line 64: `title = (soup.title.string.strip() if soup.title and
soup.title.string else None)`.  A tag is truthy; a string is truthy when
non-empty. -/
def titleOf (doc : List Node) : Option String :=
  match findFirst doc "title" with
  | some t =>
      match t.string? with
      | some s => if s ≠ "" then some (pyStrip s) else none
      | none => none
  | none => none

/-- `soup.find("meta", attrs={key: val})`. -/
def findMetaBy (doc : List Node) (key val : String) : Option Node :=
  ((flattenList doc).filter
    (fun n => n.name? == some "meta" && n.attr? key == some val)).head?

/-- Lines 65-68: the description meta (or og:description) content,
stripped, when the `content` attribute is present and non-empty. -/
def descriptionOf (doc : List Node) : Option String :=
  match (findMetaBy doc "name" "description").orElse
      (fun _ => findMetaBy doc "property" "og:description") with
  | some m =>
      match m.attr? "content" with
      | some c => if c ≠ "" then some (pyStrip c) else none
      | none => none
  | none => none

/-- Line 71: `h1s = [h.get_text(strip=True) for h in soup.find_all("h1")]`. -/
def h1Texts (doc : List Node) : List String :=
  (findAll doc "h1").map (getText "")

/-- Line 76: `hero_heading = h1s[0] if h1s else title`. -/
def heroHeadingOf (doc : List Node) : Option String :=
  match h1Texts doc with
  | t :: _ => some t
  | [] => titleOf doc

/-- Is this node one of the tags `first_h1.find_next(["p", "h2", "div"])`
looks for? -/
def isSubTag (n : Node) : Bool :=
  n.name? == some "p" || n.name? == some "h2" || n.name? == some "div"

/-- Lines 77-84: the hero subheading.  Only computed when `hero_heading` is
truthy (present and non-empty); then the first p/h2/div after the first h1
in document order supplies its text, truncated to 300. -/
def heroSubOf (doc : List Node) : Option String :=
  match heroHeadingOf doc with
  | some h =>
      if h ≠ "" then
        match findFirst doc "h1" with
        | some _ =>
            match (afterFirst doc "h1").find? isSubTag with
            | some sib => some (pyTake (getText "" sib) 300)
            | none => none
        | none => none
      else none
  | none => none

/-- Does the anchor text fail Python's
`not text.lower().startswith("#")` test?  (`lower` cannot produce or
remove a leading `#`, so this is a test on the first character.) -/
def startsWithHash (s : String) : Bool :=
  match s.data with
  | c :: _ => c.toLower == '#'
  | [] => false

/-- Lines 91-94, the per-anchor body of the `<nav>` loop: keep the anchor
when `text` and stripped `href` are non-empty (truthy) and the text does
not start with `#`. -/
def navPick (a : Node) : Option (String × String) :=
  match a.attr? "href" with
  | some h =>
      if getText "" a ≠ "" && pyStrip h ≠ "" &&
          !(startsWithHash (getText "" a)) then
        some (getText "" a, pyStrip h)
      else none
  | none => none

/-- Lines 98-102, the per-anchor body of the fallback loop: keep the anchor
when its text is non-empty (the href is not tested beyond presence). -/
def navPickFallback (a : Node) : Option (String × String) :=
  match a.attr? "href" with
  | some h => if getText "" a ≠ "" then some (getText "" a, pyStrip h) else none
  | none => none

/-- Lines 87-102: the navigation links, before the final `[:8]` cap.
If a `<nav>` exists, its anchors with an href attribute are kept when text
and stripped href are non-empty and the text does not start with `#`.
Otherwise the first 8 anchors of the whole document with an href attribute
are taken, and those with non-empty text kept. -/
def navLinksOf (doc : List Node) : List (String × String) :=
  match findFirst doc "nav" with
  | some nav => (findAllIn nav "a").filterMap navPick
  | none =>
      (((flattenList doc).filter
          (fun n => n.name? == some "a" && (n.attr? "href").isSome)).take
        8).filterMap navPickFallback

mutual

/-- The `h2` elements strictly inside a node, in document order, each paired
with its following siblings (`h2.next_siblings`). -/
def h2SecsNode : Node → List (Node × List Node)
  | .text _ => []
  | .elem _ _ cs => h2Secs cs
termination_by structural n => n

/-- Every `h2` element of the forest in document order, paired with its
following siblings (`h2.next_siblings`). -/
def h2Secs : List Node → List (Node × List Node)
  | [] => []
  | n :: ns =>
      (match n with
       | Node.elem t a cs => if t == "h2" then [(Node.elem t a cs, ns)] else []
       | Node.text _ => [])
        ++ h2SecsNode n ++ h2Secs ns
termination_by structural l => l

end

/-- Is this sibling one of the content tags of line 113
(`("p", "h3", "ul", "ol", "div")`)? -/
def isContentTag (n : Node) : Bool :=
  n.name? == some "p" || n.name? == some "h3" || n.name? == some "ul" ||
  n.name? == some "ol" || n.name? == some "div"

/-- Lines 110-116: walk the following siblings until the next `h2`,
collecting the non-empty `get_text(" ", strip=True)` of each p/h3/ul/ol/div
sibling. -/
def collectParts : List Node → List String
  | [] => []
  | sib :: rest =>
      if sib.name? == some "h2" then []
      else if isContentTag sib then
        let t := getText " " sib
        (if t ≠ "" then [t] else []) ++ collectParts rest
      else collectParts rest

/-- Line 117: `sec_text = "\n".join(content_parts)[:1200]`. -/
def sectionBody (sibs : List Node) : String :=
  pyTake (joinSep "\n" (collectParts sibs)) 1200

/-- Lines 105-121: one `{title, body}` section per `h2`, in document
order. -/
def sectionsOf (doc : List Node) : List (String × String) :=
  (h2Secs doc).map (fun p => (getText "" p.1, sectionBody p.2))

/-- Line 144's default body sentence. -/
def defaultAbout : String :=
  "We build advanced quantitative computing and AI solutions."

/-- Line 144: `description or "We build advanced..."` — the default is used
when the description is absent or empty (falsy). -/
def fallbackBody (doc : List Node) : String :=
  match descriptionOf doc with
  | some d => if d ≠ "" then d else defaultAbout
  | none => defaultAbout

/-- Lines 141-146: `sections[:6] if sections else [{About...}]`. -/
def finalSectionsOf (doc : List Node) : List (String × String) :=
  match sectionsOf doc with
  | [] => [("About", fallbackBody doc)]
  | s :: ss => (s :: ss).take 6

/-- Lines 124-130: images with a truthy (non-empty) `src`, `alt` defaulting
to the empty string, capped to 10. -/
def imagesOf (doc : List Node) : List (String × String) :=
  (((flattenList doc).filter (fun n => n.name? == some "img")).filterMap
    (fun img =>
      match img.attr? "src" with
      | some src =>
          if src ≠ "" then some (src, (img.attr? "alt").getD "") else none
      | none => none)).take 10

/-- The normalized content model assembled at lines 132-148. -/
structure NormalizedDocument where
  source : String
  title : Option String
  description : Option String
  heroHeading : Option String
  heroSubheading : Option String
  nav : List (String × String)
  sections : List (String × String)
  images : List (String × String)
deriving DecidableEq, Repr

/-- `scrape_site`'s normalization (lines 61-149), as a pure function of the
parsed tree and the source identifier. -/
def scrape_site (src : String) (doc : List Node) : NormalizedDocument :=
  { source := src
    title := titleOf doc
    description := descriptionOf doc
    heroHeading := heroHeadingOf doc
    heroSubheading := heroSubOf doc
    nav := (navLinksOf doc).take 8
    sections := finalSectionsOf doc
    images := imagesOf doc }

/-- Shorthand for building a text node. -/
def tx (s : String) : Node := Node.text s

/-- Shorthand for an element without attributes. -/
def el (tag : String) (cs : List Node) : Node := Node.elem tag [] cs

/-- Shorthand for an element with attributes. -/
def elA (tag : String) (as : List (String × String)) (cs : List Node) : Node :=
  Node.elem tag as cs

/-- The parse tree of the spec's scenario input
`<html><head><title>Acme</title><meta name="description" content="We build
things"></head><body><nav><a href="/about">About</a><a
href="#top">Jump</a></nav><h1>Welcome</h1><p>Leading
platform.</p><h2>Services</h2><p>We do X.</p><h2>Contact</h2><p>Reach
us.</p></body></html>`. -/
def scenarioDoc : List Node :=
  [el "html"
    [el "head"
      [el "title" [tx "Acme"],
       elA "meta" [("name", "description"), ("content", "We build things")] []],
     el "body"
      [el "nav"
        [elA "a" [("href", "/about")] [tx "About"],
         elA "a" [("href", "#top")] [tx "Jump"]],
       el "h1" [tx "Welcome"],
       el "p" [tx "Leading platform."],
       el "h2" [tx "Services"],
       el "p" [tx "We do X."],
       el "h2" [tx "Contact"],
       el "p" [tx "Reach us."]]]]

/-- The output the spec's scenario claims (nav keeps only the `/about`
anchor). -/
def claimedScenarioOutput : NormalizedDocument :=
  { source := "https://qarakal.ai/"
    title := some "Acme"
    description := some "We build things"
    heroHeading := some "Welcome"
    heroSubheading := some "Leading platform."
    nav := [("About", "/about")]
    sections := [("Services", "We do X."), ("Contact", "Reach us.")]
    images := [] }

/-- The output the code actually produces on the scenario input: the `Jump`
anchor passes the filter because only the anchor TEXT is tested against a
leading `#`, and `"Jump"` does not start with `#`. -/
def actualScenarioOutput : NormalizedDocument :=
  { source := "https://qarakal.ai/"
    title := some "Acme"
    description := some "We build things"
    heroHeading := some "Welcome"
    heroSubheading := some "Leading platform."
    nav := [("About", "/about"), ("Jump", "#top")]
    sections := [("Services", "We do X."), ("Contact", "Reach us.")]
    images := [] }

/-- A 1201-character meta description. -/
def bigDesc : String := String.mk (List.replicate 1201 'a')

/-- A document with no `h2` and an over-long meta description: the
synthetic fallback section receives the description verbatim. -/
def c1Doc : List Node :=
  [elA "meta" [("name", "description"), ("content", bigDesc)] []]

/-- The section-body computation read literally from the claim's words:
the text of EVERY p/h3/ul/ol/div sibling before the next `h2` is included
(no non-emptiness filter), joined with newlines, truncated to 1200. -/
def sectionBodyClaimed (sibs : List Node) : String :=
  pyTake (joinSep "\n"
    (((sibs.takeWhile (fun s => !(s.name? == some "h2"))).filter
        isContentTag).map (getText " "))) 1200

/-- The amended per-`h2` sections: body = the NON-EMPTY texts of qualifying
siblings before the next `h2`, joined with newlines and truncated to 1200;
the fallback (description when present and non-empty, else the default
sentence) only when no `h2` exists. -/
def sectionsAmendedList (doc : List Node) : List (String × String) :=
  (h2Secs doc).map (fun p =>
    (getText "" p.1,
     pyTake (joinSep "\n"
       ((((p.2.takeWhile (fun s => !(s.name? == some "h2"))).filter
           isContentTag).map (getText " ")).filter (fun t => t ≠ ""))) 1200))

/-- The amended sections specification assembled: the per-`h2` list capped
at 6, or the single About fallback when no `h2` exists. -/
def sectionsAmended (doc : List Node) : List (String × String) :=
  if (sectionsAmendedList doc).isEmpty then [("About", fallbackBody doc)]
  else (sectionsAmendedList doc).take 6

/-- An `h2` followed by an empty paragraph and a non-empty one: the claim's
literal body is `"\nX"`, the code's is `"X"`. -/
def c4Doc : List Node :=
  [el "h2" [tx "T"], el "p" [], el "p" [tx "X"]]

/-- A whitespace-only meta description and no `h2`: the description is the
present-but-empty string, yet the fallback body is the default sentence. -/
def c4aDoc : List Node :=
  [elA "meta" [("name", "description"), ("content", " ")] []]

/-- `{label, href}` of an anchor, as built by the code once the anchor is
kept. -/
def navEntry (a : Node) : String × String :=
  (getText "" a, pyStrip ((a.attr? "href").getD ""))

/-- Keep test of the amended primary navigation path: href attribute
present, non-empty text, non-empty stripped href, text not starting with
`#`. -/
def keepPrimary (a : Node) : Bool :=
  (a.attr? "href").isSome &&
  (getText "" a ≠ "" && pyStrip ((a.attr? "href").getD "") ≠ "" &&
    !(startsWithHash (getText "" a)))

/-- Keep test of the amended fallback navigation path: href attribute
present (value unconstrained) and non-empty text. -/
def keepFallback (a : Node) : Bool :=
  (a.attr? "href").isSome && (getText "" a ≠ "")

/-- The amended navigation specification.  Primary path: anchors inside the
first `<nav>` passing [[keepPrimary]], capped at 8.  Fallback path: among
the FIRST 8 anchors of the document carrying an href attribute (value
possibly empty), those with non-empty text. -/
def navAmended (doc : List Node) : List (String × String) :=
  match findFirst doc "nav" with
  | some nv => (((findAllIn nv "a").filter keepPrimary).map navEntry).take 8
  | none =>
      ((((flattenList doc).filter (fun n =>
            n.name? == some "a" && (n.attr? "href").isSome)).take 8).filter
         keepFallback).map navEntry

/-- No `<nav>`; one anchor with an EMPTY href attribute and text `x`,
followed by eight anchors with non-empty hrefs and texts. -/
def c5Doc : List Node :=
  [elA "a" [("href", "")] [tx "x"],
   elA "a" [("href", "/1")] [tx "t1"],
   elA "a" [("href", "/2")] [tx "t2"],
   elA "a" [("href", "/3")] [tx "t3"],
   elA "a" [("href", "/4")] [tx "t4"],
   elA "a" [("href", "/5")] [tx "t5"],
   elA "a" [("href", "/6")] [tx "t6"],
   elA "a" [("href", "/7")] [tx "t7"],
   elA "a" [("href", "/8")] [tx "t8"]]

/-- The hero heading as the claim words it: text of the first `h1` when one
exists, else the title. -/
def heroHeadingSpec (doc : List Node) : Option String :=
  match findFirst doc "h1" with
  | some h => some (getText "" h)
  | none => titleOf doc

/-- The amended hero subheading: computed exactly when a first `h1` exists
AND its stripped text is non-empty; then the nearest following p/h2/div in
document order supplies its text truncated to 300. -/
def heroSubSpec (doc : List Node) : Option String :=
  match findFirst doc "h1" with
  | some h =>
      if getText "" h ≠ "" then
        ((afterFirst doc "h1").find? isSubTag).map
          (fun sib => pyTake (getText "" sib) 300)
      else none
  | none => none

/-- A first `h1` with empty text followed by a paragraph: the code computes
no subheading because the heading text is falsy. -/
def c6Doc : List Node := [el "h1" [], el "p" [tx "Sub"]]

/-- The amended title specification: the trimmed unique-string content
(`Tag.string`) of the first `title` element, when it exists and is
non-empty before trimming. -/
def titleSpecAmended (doc : List Node) : Option String :=
  (findFirst doc "title").bind (fun t =>
    (Node.string? t).bind (fun s => if s = "" then none else some (pyStrip s)))

/-- A whitespace-only `<title>`: the code yields the EMPTY STRING title. -/
def c7Doc : List Node := [el "title" [tx "   "]]

/-- A `<title>` with mixed children: `Tag.string` is `None` although the
text content `AB` is non-empty, so the code yields no title. -/
def c7bDoc : List Node := [el "title" [tx "A", el "b" [tx "B"]]]

/-- A string with no leading or trailing whitespace (its own `strip` fixes
it). -/
def IsStripped (s : String) : Prop := pyStrip s = s

/-- An image whose `src` and `alt` attributes carry surrounding
whitespace: the code copies them verbatim. -/
def c8Doc : List Node :=
  [elA "img" [("src", " /a.png "), ("alt", " x ")] []]

/-- A document with a single `h2` and nothing else: the code emits one
section with an empty body and does not use the About fallback. -/
def c10Doc : List Node := [el "h2" [tx "T"]]

/-- The first-character-is-no-whitespace property used to characterize
stripped strings. -/
def headNoSpace (l : List Char) : Prop := ∀ c ∈ l.head?, isSpace c = false

/-! ## Helper lemmas -/

theorem pyTake_length_le (s : String) (n : Nat) : (pyTake s n).length ≤ n :=
  List.length_take_le n s.data

/-! ## Claim theorems -/

/-- C2 (counterexample): on the spec's scenario input the normalizer does
NOT return the claimed document — the `Jump` anchor (href `#top`) is kept,
because the code tests the anchor TEXT (not the href) for a leading `#`. -/
theorem C2_counterexample :
    scrape_site "https://qarakal.ai/" scenarioDoc ≠ claimedScenarioOutput := by
  decide

/-- C2 (amended): on the scenario input the normalizer returns title
`Acme`, description `We build things`, hero `Welcome`/`Leading platform.`,
nav `[About → /about, Jump → #top]` (the `#top` anchor is kept since its
text does not start with `#`), the two sections, and no images. -/
theorem C2_amended_scenario :
    scrape_site "https://qarakal.ai/" scenarioDoc = actualScenarioOutput := rfl

/-- C3 (code evaluation): the extraction applies no size ceiling — for
EVERY length `n`, the `n`-character raw input is normalized to a complete
document (the About fallback), and no `InputTooLarge` failure path exists
in `scrape_site` (its result type has no failure case). -/
theorem C3_no_size_check (n : Nat) :
    scrape_site "src" [Node.text (String.mk (List.replicate n 'a'))] =
      { source := "src", title := none, description := none,
        heroHeading := none, heroSubheading := none, nav := [],
        sections := [("About", defaultAbout)], images := [] } := rfl

/-- Witness for C3 at a 10-million-character input. -/
theorem C3_no_size_check_witness :
    scrape_site "src" [Node.text (String.mk (List.replicate 10000000 'a'))] =
      { source := "src", title := none, description := none,
        heroHeading := none, heroSubheading := none, nav := [],
        sections := [("About", defaultAbout)], images := [] } :=
  C3_no_size_check 10000000

/-- C9 (confirmed): normalization is a pure function of the parsed input
and source identifier — two runs on the same input yield identical
documents. -/
theorem C9_deterministic (src : String) (doc : List Node)
    (d1 d2 : NormalizedDocument)
    (h1 : scrape_site src doc = d1) (h2 : scrape_site src doc = d2) :
    d1 = d2 :=
  h1 ▸ h2

/-- Witness for C9 on the scenario input. -/
theorem C9_deterministic_witness :
    scrape_site "u" scenarioDoc = scrape_site "u" scenarioDoc :=
  C9_deterministic "u" scenarioDoc _ _ rfl rfl

/-- C7 (counterexample): a whitespace-only `<title>` yields `title = ""`
(the empty string, standing in where the claim forbids it), and a `<title>`
with mixed children yields NO title although its text content `AB` is
non-empty (the code reads `Tag.string`, not the full text content). -/
theorem C7_counterexample :
    (scrape_site "u" c7Doc).title = some "" ∧
    (findAll c7Doc "title").length = 1 ∧
    (scrape_site "u" c7bDoc).title = none ∧
    getText "" (el "title" [tx "A", el "b" [tx "B"]]) = "AB" :=
  ⟨rfl, rfl, rfl, rfl⟩

/-- C8 (counterexample): image `src`/`alt` attributes are copied verbatim,
not trimmed — an image with `src=" /a.png "` keeps its surrounding
whitespace. -/
theorem C8_counterexample :
    (scrape_site "u" c8Doc).images = [(" /a.png ", " x ")] ∧
    pyStrip " /a.png " ≠ " /a.png " :=
  ⟨rfl, by decide⟩

/-- C4 (counterexample): (a) an empty qualifying sibling is SKIPPED, while
the claim's literal join would contribute a leading newline (`"\nX"` vs the
code's `"X"`); (b) with a present-but-empty description (whitespace-only
meta content) the fallback body is the default sentence, not the (empty)
description. -/
theorem C4_counterexample :
    (scrape_site "u" c4Doc).sections = [("T", "X")] ∧
    sectionBodyClaimed [el "p" [], el "p" [tx "X"]] = "\nX" ∧
    ("X" : String) ≠ "\nX" ∧
    (scrape_site "u" c4aDoc).sections = [("About", defaultAbout)] ∧
    (scrape_site "u" c4aDoc).description = some "" :=
  ⟨rfl, rfl, by decide, rfl, rfl⟩

/-- C5 (counterexample): with no `<nav>`, the code takes the FIRST 8
anchors carrying an href attribute and only then filters by text: the
empty-href anchor `x` is kept (its href attribute is present but empty) and
the ninth anchor `t8` is never considered although it has non-empty text
and href. -/
theorem C5_counterexample :
    (scrape_site "u" c5Doc).nav =
      [("x", ""), ("t1", "/1"), ("t2", "/2"), ("t3", "/3"), ("t4", "/4"),
       ("t5", "/5"), ("t6", "/6"), ("t7", "/7")] ∧
    ("t8", "/8") ∉ (scrape_site "u" c5Doc).nav ∧
    ("x", "") ∈ (scrape_site "u" c5Doc).nav := by
  refine ⟨rfl, by decide, by decide⟩

/-- C6 (counterexample): the document has a first `<h1>` (with empty text)
followed by a paragraph `Sub`, yet the code computes NO subheading: the
truthiness test on the heading text skips the scan when the first `h1`'s
text is empty. -/
theorem C6_counterexample :
    (findAll c6Doc "h1").length = 1 ∧
    ((afterFirst c6Doc "h1").find? isSubTag).isSome = true ∧
    getText "" (el "p" [tx "Sub"]) = "Sub" ∧
    (scrape_site "u" c6Doc).heroSubheading = none :=
  ⟨rfl, rfl, rfl, rfl⟩

set_option maxRecDepth 100000 in
/-- C1 (counterexample): with no `h2` and a 1201-character meta
description, the synthetic fallback section's body is the UNTRUNCATED
description, violating the 1200-character bound. -/
theorem C1_counterexample :
    ¬ ((scrape_site "u" c1Doc).nav.length ≤ 8 ∧
       (scrape_site "u" c1Doc).sections.length ≤ 6 ∧
       1 ≤ (scrape_site "u" c1Doc).sections.length ∧
       (scrape_site "u" c1Doc).images.length ≤ 10 ∧
       ∀ s ∈ (scrape_site "u" c1Doc).sections, s.2.length ≤ 1200) := by
  decide

/-- C1 (amended): all the claimed bounds hold — nav ≤ 8, 1 ≤ sections ≤ 6,
images ≤ 10, and every section body ≤ 1200 characters — EXCEPT that when no
`h2` produced a section the single synthetic About section's body is the
untruncated description (or the default sentence) and may exceed 1200. -/
theorem C1_output_bounds (src : String) (doc : List Node) :
    (scrape_site src doc).nav.length ≤ 8 ∧
    (scrape_site src doc).sections.length ≤ 6 ∧
    1 ≤ (scrape_site src doc).sections.length ∧
    (scrape_site src doc).images.length ≤ 10 ∧
    (sectionsOf doc ≠ [] →
      ∀ s ∈ (scrape_site src doc).sections, s.2.length ≤ 1200) ∧
    (sectionsOf doc = [] →
      (scrape_site src doc).sections = [("About", fallbackBody doc)]) := by
  refine ⟨List.length_take_le _ _, ?_, ?_, List.length_take_le _ _, ?_, ?_⟩
  · show (finalSectionsOf doc).length ≤ 6
    unfold finalSectionsOf
    cases hs : sectionsOf doc with
    | nil => simp
    | cons a as => simp
  · show 1 ≤ (finalSectionsOf doc).length
    unfold finalSectionsOf
    cases hs : sectionsOf doc with
    | nil => simp
    | cons a as => simp [List.length_take]
  · intro hne s hmem
    have hsec : s ∈ sectionsOf doc := by
      have htake : (scrape_site src doc).sections = (sectionsOf doc).take 6 := by
        show finalSectionsOf doc = _
        unfold finalSectionsOf
        cases hs : sectionsOf doc with
        | nil => exact absurd hs hne
        | cons a as => rfl
      rw [htake] at hmem
      exact List.mem_of_mem_take hmem
    obtain ⟨p, hp, hps⟩ := List.mem_map.1 hsec
    have hbody : s.2 = sectionBody p.2 := by rw [← hps]
    rw [hbody]
    exact pyTake_length_le _ _
  · intro hnil
    show finalSectionsOf doc = _
    unfold finalSectionsOf
    rw [hnil]

/-- Witness for C1 on the scenario input: both body bounds and the nav cap
hold there. -/
theorem C1_output_bounds_witness :
    (∀ s ∈ (scrape_site "u" scenarioDoc).sections, s.2.length ≤ 1200) ∧
    (scrape_site "u" scenarioDoc).nav.length ≤ 8 :=
  ⟨(C1_output_bounds "u" scenarioDoc).2.2.2.2.1 (by decide),
   (C1_output_bounds "u" scenarioDoc).1⟩

/-- The section-body loop of lines 110-116 equals the amended declarative
form: take the siblings before the next `h2`, keep the content tags, take
their texts, drop the empty ones. -/
theorem collectParts_eq (sibs : List Node) :
    collectParts sibs =
      ((((sibs.takeWhile (fun s => !(s.name? == some "h2"))).filter
          isContentTag).map (getText " ")).filter (fun t => t ≠ "")) := by
  induction sibs with
  | nil => rfl
  | cons sib rest ih =>
    by_cases hh : (sib.name? == some "h2") = true
    · simp [collectParts, hh, List.takeWhile_cons]
    · by_cases hc : isContentTag sib = true
      · by_cases ht : getText " " sib ≠ ""
        · simp [collectParts, hh, hc, ht, List.takeWhile_cons, List.filter_cons, ih]
        · simp [collectParts, hh, hc, ht, List.takeWhile_cons, List.filter_cons, ih]
      · simp [collectParts, hh, hc, List.takeWhile_cons, List.filter_cons, ih]

/-- C4 (amended): sections are exactly the amended specification — per `h2`
in document order, the body joins the NON-EMPTY texts of the
p/h3/ul/ol/div following siblings before the next `h2` with newlines,
truncated to 1200; the list is capped at 6; and when no `h2` exists the
single About fallback uses the description only when present and
non-empty, else the default sentence. -/
theorem C4_sections (src : String) (doc : List Node) :
    (scrape_site src doc).sections = sectionsAmended doc := by
  have hss : sectionsAmendedList doc = sectionsOf doc := by
    unfold sectionsAmendedList sectionsOf
    apply List.map_congr_left
    intro p hp
    rw [sectionBody, collectParts_eq]
  show finalSectionsOf doc = sectionsAmended doc
  unfold finalSectionsOf sectionsAmended
  rw [hss]
  cases hs : sectionsOf doc with
  | nil => rfl
  | cons a as => rfl

/-- C7 (amended): the title is the trimmed `Tag.string` of the first
`<title>` element when that unique string exists and is non-empty before
trimming; it is absent when there is no `<title>`, no unique string child,
or an empty one; a whitespace-only title yields the empty-string title. -/
theorem C7_title (src : String) (doc : List Node) :
    (scrape_site src doc).title = titleSpecAmended doc := by
  show titleOf doc = titleSpecAmended doc
  unfold titleOf titleSpecAmended
  cases findFirst doc "title" with
  | none => rfl
  | some t =>
    simp only [Option.some_bind]
    cases Node.string? t with
    | none => rfl
    | some s =>
      simp only [Option.some_bind]
      by_cases hs : s = ""
      · simp [hs]
      · simp [hs]

/-- C6 (amended): the hero heading is the text of the first `h1` when one
exists, else the title; the subheading is computed exactly when a first
`h1` exists AND its text is non-empty, and is then the text (truncated to
300) of the nearest following p/h2/div in document order, absent when no
such element follows. -/
theorem C6_hero (src : String) (doc : List Node) :
    (scrape_site src doc).heroHeading = heroHeadingSpec doc ∧
    (scrape_site src doc).heroSubheading = heroSubSpec doc := by
  constructor
  · show heroHeadingOf doc = heroHeadingSpec doc
    unfold heroHeadingOf heroHeadingSpec h1Texts findFirst
    cases findAll doc "h1" with
    | nil => rfl
    | cons h hs => rfl
  · show heroSubOf doc = heroSubSpec doc
    unfold heroSubOf heroSubSpec heroHeadingOf h1Texts findFirst
    cases findAll doc "h1" with
    | nil =>
      cases titleOf doc with
      | none => rfl
      | some t =>
        by_cases ht : t ≠ ""
        · simp [ht]
        · simp [ht]
    | cons h hs =>
      by_cases hne : getText "" h ≠ ""
      · simp only [List.map_cons, List.head?_cons, hne, if_true]
        cases (afterFirst doc "h1").find? isSubTag with
        | none => rfl
        | some sib => rfl
      · simp [hne]

mutual

/-- Inside a single node, the first components of the `h2` pairs are the
`h2` descendants (the node itself excluded), in document order. -/
theorem h2SecsNode_fst : ∀ n : Node,
    (h2SecsNode n).map Prod.fst =
      ((flattenNode n).drop 1).filter (fun m => m.name? == some "h2")
  | Node.text s => rfl
  | Node.elem t a cs => by
      have ih := h2Secs_fst cs
      simpa [h2SecsNode, flattenNode] using ih
termination_by structural n => n

/-- The first components of the `h2` loop are exactly `find_all("h2")`, in
document order: one section is built per `h2`. -/
theorem h2Secs_fst : ∀ l : List Node,
    (h2Secs l).map Prod.fst =
      (flattenList l).filter (fun n => n.name? == some "h2")
  | [] => rfl
  | n :: ns => by
      have ihn := h2SecsNode_fst n
      have ih := h2Secs_fst ns
      cases n with
      | text s =>
          simp [h2Secs, h2SecsNode, flattenNode, flattenList,
            List.filter_append, List.filter_cons, ih, Node.name?]
      | elem t a cs =>
          by_cases ht : (t == "h2") = true
          · simp only [h2Secs, flattenList, flattenNode, List.filter_append,
              List.filter_cons, List.map_append, ihn, ih, Node.name?,
              Option.some_beq_some, ht, if_true, flattenNode, List.drop_succ_cons,
              List.drop_zero]
            simp
          · simp only [h2Secs, flattenList, flattenNode, List.filter_append,
              List.filter_cons, List.map_append, ihn, ih, Node.name?,
              Option.some_beq_some, ht, if_false, flattenNode,
              List.drop_succ_cons, List.drop_zero]
            simp [ht]
termination_by structural l => l

end

/-- C10 (confirmed): one section is emitted per `h2` (its title the `h2`'s
text) even when no qualifying sibling content follows — the body is then
empty — and the synthetic About fallback appears exactly when the document
contains no `h2` at all, never merely because bodies are empty.  The output
is the emitted list capped at 6. -/
theorem C10_section_per_h2 (src : String) (doc : List Node) :
    (sectionsOf doc).map Prod.fst = (findAll doc "h2").map (getText "") ∧
    ((findAll doc "h2").isEmpty = true →
      (scrape_site src doc).sections = [("About", fallbackBody doc)]) ∧
    ((findAll doc "h2").isEmpty = false →
      (scrape_site src doc).sections = (sectionsOf doc).take 6) := by
  have hfst : (h2Secs doc).map Prod.fst = findAll doc "h2" := h2Secs_fst doc
  have hsec : sectionsOf doc = [] ↔ findAll doc "h2" = [] := by
    rw [← hfst]
    unfold sectionsOf
    simp
  refine ⟨?_, ?_, ?_⟩
  · rw [← hfst]
    unfold sectionsOf
    rw [List.map_map, List.map_map]
    rfl
  · intro hemp
    rw [List.isEmpty_iff] at hemp
    have h0 : sectionsOf doc = [] := hsec.2 hemp
    show finalSectionsOf doc = _
    unfold finalSectionsOf
    rw [h0]
  · intro hne
    rw [List.isEmpty_eq_false] at hne
    have h0 : sectionsOf doc ≠ [] := fun h => hne (hsec.1 h)
    show finalSectionsOf doc = _
    unfold finalSectionsOf
    cases hs : sectionsOf doc with
    | nil => exact absurd hs h0
    | cons a as => rfl

/-- Witness for C10: a document whose only `h2` has no following content
yields exactly one section with an empty body (no About fallback). -/
theorem C10_section_per_h2_witness :
    (scrape_site "u" c10Doc).sections = [("T", "")] := by
  have h := (C10_section_per_h2 "u" c10Doc).2.2 (by decide)
  rw [h]
  rfl

/-- A `filterMap` whose function yields `navEntry a` exactly when a Boolean
test passes is a `filter` followed by a `map`. -/
theorem filterMap_eq_filter_map (f : Node → Option (String × String))
    (g : Node → Bool)
    (hf : ∀ a, f a = if g a then some (navEntry a) else none)
    (l : List Node) :
    l.filterMap f = (l.filter g).map navEntry := by
  induction l with
  | nil => rfl
  | cons a rest ih =>
    rw [List.filterMap_cons, List.filter_cons, hf a]
    by_cases hg : g a = true
    · simp [hg, ih]
    · simp [hg, ih]

/-- The primary per-anchor pick is the `keepPrimary` test plus
`navEntry`. -/
theorem navPick_eq (a : Node) :
    navPick a = if keepPrimary a then some (navEntry a) else none := by
  unfold navPick keepPrimary navEntry
  cases ha : a.attr? "href" with
  | none => simp
  | some h => simp

/-- The fallback per-anchor pick is the `keepFallback` test plus
`navEntry`. -/
theorem navPickFallback_eq (a : Node) :
    navPickFallback a = if keepFallback a then some (navEntry a) else none := by
  unfold navPickFallback keepFallback navEntry
  cases ha : a.attr? "href" with
  | none => simp
  | some h => simp

/-- C5 (amended): with a `<nav>`, nav is exactly its anchors with an href
attribute, non-empty text and stripped href, text not starting with `#`,
in document order capped at 8.  With no `<nav>`, nav consists of those of
the FIRST 8 anchors of the document carrying an href attribute (the value
may be empty and the `#` text filter is not applied) whose text is
non-empty — anchors beyond the first 8 are never considered, so fewer than
8 entries can result even when later anchors qualify. -/
theorem C5_nav (src : String) (doc : List Node) :
    (scrape_site src doc).nav = navAmended doc := by
  show (navLinksOf doc).take 8 = navAmended doc
  unfold navLinksOf navAmended
  cases findFirst doc "nav" with
  | some nv =>
    dsimp only
    rw [filterMap_eq_filter_map navPick keepPrimary navPick_eq]
  | none =>
    dsimp only
    rw [filterMap_eq_filter_map navPickFallback keepFallback navPickFallback_eq]
    apply List.take_of_length_le
    rw [List.length_map]
    calc ((((flattenList doc).filter (fun n =>
            n.name? == some "a" && (n.attr? "href").isSome)).take 8).filter
              keepFallback).length
        ≤ (((flattenList doc).filter (fun n =>
            n.name? == some "a" && (n.attr? "href").isSome)).take 8).length :=
          List.length_filter_le _ _
      _ ≤ 8 := List.length_take_le _ _

/-- Dropping leading whitespace leaves no leading whitespace. -/
theorem headNoSpace_dropWhile (l : List Char) :
    headNoSpace (l.dropWhile isSpace) := by
  induction l with
  | nil => intro c hc; simp at hc
  | cons c cs ih =>
    by_cases h : isSpace c = true
    · simpa [List.dropWhile_cons, h] using ih
    · rw [List.dropWhile_cons, if_neg (by simp [h])]
      intro x hx
      have hcx : c = x := Option.some.inj hx
      rw [← hcx]
      simpa using h

/-- A list without leading whitespace is untouched by `dropWhile`. -/
theorem dropWhile_eq_self_of_head {l : List Char} (h : headNoSpace l) :
    l.dropWhile isSpace = l := by
  cases l with
  | nil => rfl
  | cons c cs =>
    have hc : isSpace c = false := h c rfl
    rw [List.dropWhile_cons, if_neg (by simp [hc])]

/-- A list without leading or trailing whitespace is its own strip. -/
theorem stripChars_eq_self {l : List Char} (h1 : headNoSpace l)
    (h2 : headNoSpace l.reverse) : stripChars l = l := by
  unfold stripChars
  rw [dropWhile_eq_self_of_head h1, dropWhile_eq_self_of_head h2,
    List.reverse_reverse]

/-- The strip of any list has no leading whitespace. -/
theorem headNoSpace_stripChars (l : List Char) :
    headNoSpace (stripChars l) := by
  intro c hc
  obtain ⟨t, ht⟩ :=
    List.dropWhile_suffix (l := (l.dropWhile isSpace).reverse) isSpace
  have hm : l.dropWhile isSpace = stripChars l ++ t.reverse := by
    have h2 := congrArg List.reverse ht
    rw [List.reverse_append, List.reverse_reverse] at h2
    exact h2.symm
  have hcm : c ∈ (l.dropWhile isSpace).head? := by
    rw [hm, List.head?_append]
    rw [Option.mem_def] at hc ⊢
    rw [hc]
    rfl
  exact headNoSpace_dropWhile l c hcm

/-- The strip of any list has no trailing whitespace. -/
theorem lastNoSpace_stripChars (l : List Char) :
    headNoSpace (stripChars l).reverse := by
  unfold stripChars
  rw [List.reverse_reverse]
  exact headNoSpace_dropWhile _

/-- A string with no surrounding whitespace is stripped. -/
theorem isStripped_mk {s : String} (h1 : headNoSpace s.data)
    (h2 : headNoSpace s.data.reverse) : IsStripped s := by
  unfold IsStripped pyStrip
  rw [stripChars_eq_self h1 h2]

/-- `pyStrip` is idempotent: its output is stripped. -/
theorem pyStrip_isStripped (s : String) : IsStripped (pyStrip s) :=
  isStripped_mk (headNoSpace_stripChars s.data) (lastNoSpace_stripChars s.data)

/-- A stripped string has no leading whitespace. -/
theorem isStripped_head {s : String} (h : IsStripped s) : headNoSpace s.data := by
  have hd : s.data = stripChars s.data := by
    conv_lhs => rw [← h]
    rfl
  rw [hd]
  exact headNoSpace_stripChars s.data

/-- A stripped string has no trailing whitespace. -/
theorem isStripped_last {s : String} (h : IsStripped s) :
    headNoSpace s.data.reverse := by
  have hd : s.data = stripChars s.data := by
    conv_lhs => rw [← h]
    rfl
  rw [hd]
  exact lastNoSpace_stripChars s.data

/-- Appending to the right of a non-empty list without leading whitespace
keeps the head whitespace-free. -/
theorem headNoSpace_append_left {a : List Char} (b : List Char)
    (ha : headNoSpace a) (hne : a ≠ []) : headNoSpace (a ++ b) := by
  cases a with
  | nil => exact absurd rfl hne
  | cons c cs =>
    intro x hx
    rw [List.cons_append] at hx
    have hcx : c = x := Option.some.inj hx
    rw [← hcx]
    exact ha c rfl

/-- A separator-join of stripped non-empty parts is non-empty (when the
part list is non-empty) and has no surrounding whitespace. -/
theorem joinSep_props (sep : String) : ∀ l : List String,
    (∀ p ∈ l, IsStripped p ∧ p ≠ "") → l ≠ [] →
    (joinSep sep l ≠ "" ∧ headNoSpace (joinSep sep l).data ∧
      headNoSpace (joinSep sep l).data.reverse)
  | [], _, hne => absurd rfl hne
  | [s], h, _ => by
      obtain ⟨hs, hne⟩ := h s (by simp)
      exact ⟨hne, isStripped_head hs, isStripped_last hs⟩
  | s :: r :: t, h, _ => by
      obtain ⟨hs, hsne⟩ := h s (by simp)
      obtain ⟨jne, jhead, jlast⟩ :=
        joinSep_props sep (r :: t) (fun p hp => h p (by simp [hp])) (by simp)
      have hsd : s.data ≠ [] := by
        intro hd
        exact hsne (by rw [String.ext_iff]; exact hd)
      have hjd : (joinSep sep (r :: t)).data ≠ [] := by
        intro hd
        exact jne (by rw [String.ext_iff]; exact hd)
      have hjoin : joinSep sep (s :: r :: t) =
          s ++ sep ++ joinSep sep (r :: t) := rfl
      refine ⟨?_, ?_, ?_⟩
      · intro he
        have hed := congrArg String.data he
        rw [hjoin] at hed
        simp only [String.data_append] at hed
        rcases List.append_eq_nil.1 hed with ⟨hl, -⟩
        rcases List.append_eq_nil.1 hl with ⟨hsl, -⟩
        exact hsd hsl
      · rw [hjoin]
        simp only [String.data_append]
        exact headNoSpace_append_left _
          (headNoSpace_append_left _ (isStripped_head hs) hsd)
          (by simp [hsd])
      · rw [hjoin]
        simp only [String.data_append, List.reverse_append]
        exact headNoSpace_append_left _ jlast (by simp [hjd])
termination_by structural l => l

/-- A separator-join of stripped non-empty parts is stripped. -/
theorem joinSep_isStripped (sep : String) (l : List String)
    (h : ∀ p ∈ l, IsStripped p ∧ p ≠ "") : IsStripped (joinSep sep l) := by
  cases l with
  | nil => rfl
  | cons s t =>
    obtain ⟨-, hh, hl⟩ := joinSep_props sep (s :: t) h (by simp)
    exact isStripped_mk hh hl

/-- `get_text(sep, strip=True)` always returns a stripped string: it joins
stripped non-empty fragments. -/
theorem getText_isStripped (sep : String) (n : Node) :
    IsStripped (getText sep n) := by
  apply joinSep_isStripped
  intro p hp
  rw [List.mem_filter] at hp
  obtain ⟨hp1, hp2⟩ := hp
  obtain ⟨q, hq, hpq⟩ := List.mem_map.1 hp1
  refine ⟨?_, ?_⟩
  · rw [← hpq]
    exact pyStrip_isStripped q
  · simpa using hp2

/-- C8 (amended): the title, description, hero heading, nav labels and
hrefs, and section titles are all trimmed of surrounding whitespace; image
`src`/`alt` are exempt (copied verbatim from the attributes), and the hero
subheading and section bodies are trimmed only BEFORE truncation, so a
truncation cut can leave trailing whitespace. -/
theorem C8_trimmed_fields (src : String) (doc : List Node) :
    (∀ t ∈ (scrape_site src doc).title, IsStripped t) ∧
    (∀ d ∈ (scrape_site src doc).description, IsStripped d) ∧
    (∀ h ∈ (scrape_site src doc).heroHeading, IsStripped h) ∧
    (∀ e ∈ (scrape_site src doc).nav, IsStripped e.1 ∧ IsStripped e.2) ∧
    (∀ s ∈ (scrape_site src doc).sections, IsStripped s.1) := by
  have htitle : ∀ t ∈ titleOf doc, IsStripped t := by
    intro t ht
    unfold titleOf at ht
    split at ht
    · split at ht
      · split at ht
        · have he : some (pyStrip _) = some t := ht
          rw [← Option.some.inj he]
          exact pyStrip_isStripped _
        · simp at ht
      · simp at ht
    · simp at ht
  have hdesc : ∀ d ∈ descriptionOf doc, IsStripped d := by
    intro d hd
    unfold descriptionOf at hd
    split at hd
    · split at hd
      · split at hd
        · have he : some (pyStrip _) = some d := hd
          rw [← Option.some.inj he]
          exact pyStrip_isStripped _
        · simp at hd
      · simp at hd
    · simp at hd
  have hhead : ∀ h ∈ heroHeadingOf doc, IsStripped h := by
    intro h hh
    unfold heroHeadingOf at hh
    cases hl : h1Texts doc with
    | nil =>
      have hh2 : h ∈ titleOf doc := by rw [hl] at hh; exact hh
      exact htitle h hh2
    | cons t rest =>
      have hh2 : some t = some h := by rw [hl] at hh; exact hh
      have htm : t ∈ h1Texts doc := by
        rw [hl]
        exact List.mem_cons_self t rest
      unfold h1Texts at htm
      obtain ⟨q, hq, hqt⟩ := List.mem_map.1 htm
      rw [← Option.some.inj hh2, ← hqt]
      exact getText_isStripped "" q
  have hnav : ∀ e ∈ navLinksOf doc, IsStripped e.1 ∧ IsStripped e.2 := by
    intro e he
    unfold navLinksOf at he
    cases hf : findFirst doc "nav" with
    | some nv =>
      have he2 : e ∈ (findAllIn nv "a").filterMap navPick := by
        rw [hf] at he; exact he
      obtain ⟨a, ha, hpa⟩ := List.mem_filterMap.1 he2
      rw [navPick_eq] at hpa
      split at hpa
      · rw [← Option.some.inj hpa]
        exact ⟨getText_isStripped "" a, pyStrip_isStripped _⟩
      · simp at hpa
    | none =>
      have he2 : e ∈ (((flattenList doc).filter (fun n =>
          n.name? == some "a" && (n.attr? "href").isSome)).take
            8).filterMap navPickFallback := by
        rw [hf] at he; exact he
      obtain ⟨a, ha, hpa⟩ := List.mem_filterMap.1 he2
      rw [navPickFallback_eq] at hpa
      split at hpa
      · rw [← Option.some.inj hpa]
        exact ⟨getText_isStripped "" a, pyStrip_isStripped _⟩
      · simp at hpa
  have habout : IsStripped "About" := rfl
  have hsecs : ∀ s ∈ finalSectionsOf doc, IsStripped s.1 := by
    intro s hs
    unfold finalSectionsOf at hs
    cases hl : sectionsOf doc with
    | nil =>
      have hs2 : s ∈ [("About", fallbackBody doc)] := by rw [hl] at hs; exact hs
      have hse : s = ("About", fallbackBody doc) := List.mem_singleton.1 hs2
      rw [hse]
      exact habout
    | cons a as =>
      have hs2 : s ∈ (a :: as).take 6 := by rw [hl] at hs; exact hs
      have hsm : s ∈ sectionsOf doc := by
        rw [hl]
        exact List.mem_of_mem_take hs2
      unfold sectionsOf at hsm
      obtain ⟨p, hp, hps⟩ := List.mem_map.1 hsm
      rw [← hps]
      exact getText_isStripped "" p.1
  refine ⟨htitle, hdesc, hhead, ?_, hsecs⟩
  intro e he
  exact hnav e (List.mem_of_mem_take he)

/-- Witness for C8 on the scenario input: the title and a nav href are
trimmed. -/
theorem C8_trimmed_fields_witness :
    IsStripped "Acme" ∧ IsStripped "/about" :=
  ⟨(C8_trimmed_fields "u" scenarioDoc).1 "Acme" rfl,
   ((C8_trimmed_fields "u" scenarioDoc).2.2.2.1 ("About", "/about")
      (by decide)).2⟩
